import Mathlib

/-!
# Inventory ledger and P&L engine of the `crm` repository — shallow embedding

This file embeds the Convex mutations and queries that make up the core of
the repository (`convex/purchases.ts`, `convex/products.ts`, the sales,
stock-movement, settings and report modules, and the `computeMetrics`
function of `src/routes/_protected/reports.tsx`) and proves the stated
properties about them.

Modelling conventions:
* JavaScript numbers stored in the tables are modelled as `ℤ`: the
  claims are about exact arithmetic, and the mutations use only `+`, `-`,
  `*`, `max` and comparisons on them.  The metric derivation of the
  reports route divides (`taxRate / 100`, the percentage ratios), so
  `computeMetrics` works in `ℚ` over the integer-valued rows.
* Convex document ids are modelled as `Nat`; the database assigns
  `nextId` to each inserted row, mirroring Convex's fresh-id generation.
* Tables are lists kept in insertion order (Convex's `_creationTime`
  order); `ctx.db.get` is a `find?` by id, `ctx.db.patch` maps over the
  table, `ctx.db.insert` appends.
* Optional schema fields (`purchases.status`, `sales.voided`) are
  `Option`s; JS truthiness tests such as `if (sale.voided)` become
  `= some true`, and `p.status !== 'cancelled'` becomes
  `≠ some .cancelled`, exactly as the undefined case behaves in JS.
* `Date.now()` is threaded in as an explicit `now` argument; the caller
  identity (`user.name` / `user.email`) as a `user : String` argument.
  `requireRole` is an authorization precondition orthogonal to the claims
  and is modelled out.
* Exceptions become `Except Err`; a mutation that throws before writing
  leaves the database unchanged, which `applyOp` makes explicit.
* `adjustStock` is embedded from the current `products.ts` (the file that
  also holds `bulkUpsertProducts`/`getStockSummary`); the repository also
  contains an older copy without the stock-movement audit row.
* In `cancelPurchase` the source reads the `by_date` index (ascending,
  ties in creation order) and takes the head of a stable descending sort;
  `latestByDate` below computes the same element — the first-inserted row
  among those with the maximal date — directly on the insertion-order
  list.
* The `topProducts` / `expenseByCategory` / `monthlyTrend` breakdowns of
  `computeMetrics` depend on calendar-date formatting and are not needed
  by any claim; the embedding keeps all scalar metrics.
-/

namespace CRM

inductive PaymentMethod
  | cash
  | bankTransfer
  | credit
  | qris
deriving DecidableEq

inductive MovementType
  | adjustment
  | transfer
  | production
  | waste
deriving DecidableEq

inductive PurchaseStatus
  | active
  | cancelled
deriving DecidableEq

/-- The errors thrown by the mutations, with the data their messages carry.
`insufficientStock` keeps the available quantity and the unit of measure
that `createSale` interpolates into its message; `createStockMovement`
throws a bare `Insufficient stock`. -/
inductive Err
  | productNotFound
  | purchaseNotFound
  | saleNotFound
  | purchaseAlreadyCancelled
  | saleAlreadyVoided
  | insufficientStock (available : ℤ) (unitName : String)
  | insufficientStockPlain
  | negativeQuantity
deriving DecidableEq

structure Product where
  id : Nat
  sku : String
  name : String
  category : String
  unit : String
  unitCost : ℤ
  sellingPrice : Option ℤ
  qty : ℤ
  reorderLevel : ℤ
  updatedAt : ℤ
deriving DecidableEq

structure Purchase where
  id : Nat
  productId : Nat
  qty : ℤ
  unitCost : ℤ
  totalCost : ℤ
  supplier : String
  invoiceNo : Option String
  date : ℤ
  status : Option PurchaseStatus
  paymentMethod : Option PaymentMethod
  createdBy : String
  createdAt : ℤ
deriving DecidableEq

structure Sale where
  id : Nat
  productId : Nat
  qty : ℤ
  sellingPrice : ℤ
  discount : ℤ
  cogs : ℤ
  revenue : ℤ
  date : ℤ
  voided : Option Bool
  createdBy : String
  createdAt : ℤ
deriving DecidableEq

structure StockMovement where
  id : Nat
  productId : Nat
  type : MovementType
  qty : ℤ
  reason : Option String
  date : ℤ
  createdBy : String
  createdAt : ℤ
deriving DecidableEq

structure Expense where
  id : Nat
  category : String
  amount : ℤ
  description : String
  supplier : Option String
  date : ℤ
  paymentMethod : Option PaymentMethod
  createdBy : String
  createdAt : ℤ
deriving DecidableEq

structure OtherIncomeRow where
  id : Nat
  source : String
  amount : ℤ
  notes : Option String
  date : ℤ
  createdAt : ℤ
deriving DecidableEq

structure AppSettings where
  id : Nat
  taxRate : ℤ
  expenseCategories : List String
deriving DecidableEq

/-- The document store: one list per table, in insertion order, plus the
fresh-id counter. -/
structure DB where
  products : List Product
  purchases : List Purchase
  sales : List Sale
  stockMovements : List StockMovement
  expenses : List Expense
  otherIncome : List OtherIncomeRow
  appSettings : List AppSettings
  nextId : Nat
deriving DecidableEq

/-- `ctx.db.get(id)` on a table. -/
def findRow {α : Type} (getId : α → Nat) (l : List α) (i : Nat) : Option α :=
  l.find? fun p => getId p == i

/-- `ctx.db.patch(id, f)` on a table. -/
def patchRow {α : Type} (getId : α → Nat) (l : List α) (i : Nat) (f : α → α) : List α :=
  l.map fun p => if getId p = i then f p else p

def DB.findProduct (db : DB) (i : Nat) : Option Product :=
  findRow Product.id db.products i

def DB.findPurchase (db : DB) (i : Nat) : Option Purchase :=
  findRow Purchase.id db.purchases i

def DB.findSale (db : DB) (i : Nat) : Option Sale :=
  findRow Sale.id db.sales i

/-! ## Purchase ledger (`convex/purchases.ts`) -/

structure PurchaseArgs where
  productId : Nat
  qty : ℤ
  unitCost : ℤ
  totalCost : ℤ
  supplier : String
  invoiceNo : Option String
  date : ℤ
  paymentMethod : Option PaymentMethod
deriving DecidableEq

/-- `createPurchase`: look up the product (`Product not found` otherwise),
insert the purchase row with `status = active`, then patch the product with
`qty := product.qty + args.qty`, `unitCost := args.unitCost` and a fresh
`updatedAt`. -/
def createPurchase (db : DB) (a : PurchaseArgs) (user : String) (now : ℤ) :
    Except Err DB :=
  match db.findProduct a.productId with
  | none => .error .productNotFound
  | some product =>
    let db1 : DB := { db with
      purchases := db.purchases ++ [{
        id := db.nextId
        productId := a.productId
        qty := a.qty
        unitCost := a.unitCost
        totalCost := a.totalCost
        supplier := a.supplier
        invoiceNo := a.invoiceNo
        date := a.date
        status := some .active
        paymentMethod := a.paymentMethod
        createdBy := user
        createdAt := now }]
      nextId := db.nextId + 1 }
    .ok { db1 with
      products := patchRow Product.id db1.products a.productId fun p =>
        { p with qty := product.qty + a.qty, unitCost := a.unitCost, updatedAt := now } }

/-- The source's
`remainingPurchases.filter(p => p._id !== id && p.productId === purchase.productId && p.status !== 'cancelled')`. -/
def otherActivePurchases (purchases : List Purchase) (i : Nat) (productId : Nat) :
    List Purchase :=
  purchases.filter fun p =>
    decide (p.id ≠ i ∧ p.productId = productId ∧ p.status ≠ some .cancelled)

/-- Head of the stable descending-by-date sort of the source: the
first-inserted row among those with the maximal `date` (ties keep earlier
rows because the fold only replaces the accumulator on a strict increase). -/
def latestByDate (l : List Purchase) : Option Purchase :=
  match l with
  | [] => none
  | p :: ps => some (ps.foldl (fun acc q => if acc.date < q.date then q else acc) p)

/-- `cancelPurchase`: `Purchase not found` / `Purchase is already cancelled`
guards; if the product still exists, floor its quantity at
`max 0 (qty - purchase.qty)` and recompute `unitCost` from the remaining
active purchases (keeping the current cost when none remain); finally mark
the purchase `cancelled`. -/
def cancelPurchase (db : DB) (i : Nat) (now : ℤ) : Except Err DB :=
  match db.findPurchase i with
  | none => .error .purchaseNotFound
  | some purchase =>
    if purchase.status = some .cancelled then .error .purchaseAlreadyCancelled
    else
      let db1 : DB :=
        match db.findProduct purchase.productId with
        | none => db
        | some product =>
          let newQty := max 0 (product.qty - purchase.qty)
          let lastActiveCost :=
            match latestByDate (otherActivePurchases db.purchases i purchase.productId) with
            | some q => q.unitCost
            | none => product.unitCost
          { db with products := patchRow Product.id db.products purchase.productId fun p =>
              { p with qty := newQty, unitCost := lastActiveCost, updatedAt := now } }
      .ok { db1 with
        purchases := patchRow Purchase.id db1.purchases i fun p =>
          { p with status := some .cancelled } }

/-! ## Sales ledger (sales module) -/

structure SaleArgs where
  productId : Nat
  qty : ℤ
  sellingPrice : ℤ
  discount : ℤ
  date : ℤ
deriving DecidableEq

/-- `createSale`: `Product not found` guard, then the
`Insufficient stock. Available: ${product.qty} ${product.unit}` guard when
`product.qty < args.qty`; on success freeze `cogs = product.unitCost * qty`
and `revenue = sellingPrice * qty - discount`, insert the sale with
`voided = false`, and patch the product with `qty := product.qty - args.qty`. -/
def createSale (db : DB) (a : SaleArgs) (user : String) (now : ℤ) :
    Except Err DB :=
  match db.findProduct a.productId with
  | none => .error .productNotFound
  | some product =>
    if product.qty < a.qty then
      .error (.insufficientStock product.qty product.unit)
    else
      let cogs := product.unitCost * a.qty
      let revenue := a.sellingPrice * a.qty - a.discount
      let db1 : DB := { db with
        sales := db.sales ++ [{
          id := db.nextId
          productId := a.productId
          qty := a.qty
          sellingPrice := a.sellingPrice
          discount := a.discount
          cogs := cogs
          revenue := revenue
          date := a.date
          voided := some false
          createdBy := user
          createdAt := now }]
        nextId := db.nextId + 1 }
      .ok { db1 with
        products := patchRow Product.id db1.products a.productId fun p =>
          { p with qty := product.qty - a.qty, updatedAt := now } }

/-- `voidSale`: `Sale not found` / `Sale is already voided` guards; mark the
sale voided, then restore the product's quantity by the sale's quantity —
silently skipping the restoration when the product no longer exists. -/
def voidSale (db : DB) (i : Nat) (now : ℤ) : Except Err DB :=
  match db.findSale i with
  | none => .error .saleNotFound
  | some sale =>
    if sale.voided = some true then .error .saleAlreadyVoided
    else
      let db1 : DB := { db with
        sales := patchRow Sale.id db.sales i fun s => { s with voided := some true } }
      match db1.findProduct sale.productId with
      | none => .ok db1
      | some product =>
        .ok { db1 with
          products := patchRow Product.id db1.products sale.productId fun p =>
            { p with qty := product.qty + sale.qty, updatedAt := now } }

/-! ## Product registry (`convex/products.ts`) -/

/-- `adjustStock`: reject `qty < 0` (`Quantity cannot be negative`), then
`Product not found` guard; set the absolute quantity and `updatedAt`, and
when `delta = qty - product.qty` is non-zero append the audit
`StockMovement` with that signed delta, `type` defaulting to `adjustment`
and `date` defaulting to now. -/
def adjustStock (db : DB) (i : Nat) (q : ℤ) (reason : String)
    (ty : Option MovementType) (date : Option ℤ) (user : String) (now : ℤ) :
    Except Err DB :=
  if q < 0 then .error .negativeQuantity
  else
    match db.findProduct i with
    | none => .error .productNotFound
    | some product =>
      let delta := q - product.qty
      let db1 : DB := { db with
        products := patchRow Product.id db.products i fun p =>
          { p with qty := q, updatedAt := now } }
      if delta ≠ 0 then
        .ok { db1 with
          stockMovements := db1.stockMovements ++ [{
            id := db1.nextId
            productId := i
            type := ty.getD .adjustment
            qty := delta
            reason := some reason
            date := date.getD now
            createdBy := user
            createdAt := now }]
          nextId := db1.nextId + 1 }
      else .ok db1

/-! ## Stock movement log (`convex/stockMovements.ts`) -/

structure MovementArgs where
  productId : Nat
  type : MovementType
  qty : ℤ
  reason : Option String
  date : ℤ
deriving DecidableEq

/-- `createStockMovement`: `Product not found` guard, then reject when
`product.qty + args.qty < 0` (`Insufficient stock`); patch the product to
the new quantity and insert the movement row. -/
def createStockMovement (db : DB) (a : MovementArgs) (user : String) (now : ℤ) :
    Except Err DB :=
  match db.findProduct a.productId with
  | none => .error .productNotFound
  | some product =>
    let newQty := product.qty + a.qty
    if newQty < 0 then .error .insufficientStockPlain
    else
      let db1 : DB := { db with
        products := patchRow Product.id db.products a.productId fun p =>
          { p with qty := newQty, updatedAt := now } }
      .ok { db1 with
        stockMovements := db1.stockMovements ++ [{
          id := db1.nextId
          productId := a.productId
          type := a.type
          qty := a.qty
          reason := a.reason
          date := a.date
          createdBy := user
          createdAt := now }]
        nextId := db1.nextId + 1 }

/-! ## Settings store (settings module) -/

/-- `getSettings`: first row of the singleton table, `null` when none. -/
def getSettings (db : DB) : Option AppSettings :=
  db.appSettings.head?

/-- `upsertSettings`: patch the existing record with exactly the supplied
fields (the source spreads `args.taxRate !== undefined && {...}`), or
insert a fresh record with omitted fields defaulted to `0` / `[]`. -/
def upsertSettings (db : DB) (taxRate : Option ℤ)
    (expenseCategories : Option (List String)) : DB :=
  match db.appSettings.head? with
  | some existing =>
    { db with appSettings := patchRow AppSettings.id db.appSettings existing.id fun s =>
        { s with
          taxRate := match taxRate with | some t => t | none => s.taxRate
          expenseCategories :=
            match expenseCategories with | some c => c | none => s.expenseCategories } }
  | none =>
    { db with
      appSettings := db.appSettings ++ [{
        id := db.nextId
        taxRate := taxRate.getD 0
        expenseCategories := expenseCategories.getD [] }]
      nextId := db.nextId + 1 }

/-! ## P&L report (`convex/reports.ts` and the reports route) -/

/-- A sale as returned by `getPLData`: the row enriched with the product's
name and SKU, dangling references resolving to the placeholders. -/
structure EnrichedSale extends Sale where
  productName : String
  productSku : String
deriving DecidableEq

/-- The enrichment of one sale; the source builds a `Map` keyed by the
(unique) product ids and reads it per sale, which is the same per-sale
lookup. -/
def enrichSale (db : DB) (s : Sale) : EnrichedSale :=
  match db.findProduct s.productId with
  | some p => { toSale := s, productName := p.name, productSku := p.sku }
  | none => { toSale := s, productName := "Deleted Product", productSku := "—" }

structure PLData where
  sales : List EnrichedSale
  expenses : List Expense
  otherIncome : List OtherIncomeRow
deriving DecidableEq

/-- `getPLData`: the three tables restricted by the `by_date` index to
`startDate ≤ date ≤ endDate` (inclusive on both ends), voided sales
filtered out (`!s.voided` keeps `false` and `undefined`), sales enriched
with product name/SKU. -/
def getPLData (db : DB) (startDate endDate : ℤ) : PLData :=
  let allSales := db.sales.filter fun s => decide (startDate ≤ s.date ∧ s.date ≤ endDate)
  let expenses := db.expenses.filter fun e => decide (startDate ≤ e.date ∧ e.date ≤ endDate)
  let otherIncome := db.otherIncome.filter fun o => decide (startDate ≤ o.date ∧ o.date ≤ endDate)
  let activeSales := allSales.filter fun s => !(s.voided == some true)
  { sales := activeSales.map (enrichSale db)
    expenses := expenses
    otherIncome := otherIncome }

/-- The scalar outputs of `computeMetrics` (the calendar-bucketed
breakdowns are not needed by any claim).  The metric derivation divides
(`taxRate / 100`, the percentage ratios), so this layer computes in `ℚ`
over the integer-valued ledger rows. -/
structure Metrics where
  revenue : ℚ
  cogs : ℚ
  grossProfit : ℚ
  opExTotal : ℚ
  operatingIncome : ℚ
  otherIncomeTotal : ℚ
  profitBeforeTax : ℚ
  tax : ℚ
  taxRate : ℚ
  netProfit : ℚ
  totalIncome : ℚ
  grossMarginPct : ℚ
  costRatioPct : ℚ
deriving DecidableEq

/-- `computeMetrics` of the reports route, in the source's order of
derivation; `tax` is levied only on a positive `profitBeforeTax`. -/
def computeMetrics (data : PLData) (taxRate : ℚ) : Metrics :=
  let revenue := data.sales.foldl (fun s x => s + (x.revenue : ℚ)) 0
  let cogs := data.sales.foldl (fun s x => s + (x.cogs : ℚ)) 0
  let grossProfit := revenue - cogs
  let opExTotal := data.expenses.foldl (fun s x => s + (x.amount : ℚ)) 0
  let operatingIncome := grossProfit - opExTotal
  let otherIncomeTotal := data.otherIncome.foldl (fun s x => s + (x.amount : ℚ)) 0
  let profitBeforeTax := operatingIncome + otherIncomeTotal
  let tax := if 0 < profitBeforeTax then profitBeforeTax * (taxRate / 100) else 0
  let netProfit := profitBeforeTax - tax
  let totalIncome := revenue + otherIncomeTotal
  let grossMarginPct := if 0 < revenue then grossProfit / revenue * 100 else 0
  let costRatioPct := if 0 < revenue then cogs / revenue * 100 else 0
  { revenue := revenue
    cogs := cogs
    grossProfit := grossProfit
    opExTotal := opExTotal
    operatingIncome := operatingIncome
    otherIncomeTotal := otherIncomeTotal
    profitBeforeTax := profitBeforeTax
    tax := tax
    taxRate := taxRate
    netProfit := netProfit
    totalIncome := totalIncome
    grossMarginPct := grossMarginPct
    costRatioPct := costRatioPct }

/-! ## Operation sequences -/

/-- The six stock-mutating operations of the invariant claim, with their
full argument records. -/
inductive Op
  | createPurchase (a : PurchaseArgs) (user : String) (now : ℤ)
  | createSale (a : SaleArgs) (user : String) (now : ℤ)
  | adjustStock (i : Nat) (q : ℤ) (reason : String) (ty : Option MovementType)
      (date : Option ℤ) (user : String) (now : ℤ)
  | createStockMovement (a : MovementArgs) (user : String) (now : ℤ)
  | cancelPurchase (i : Nat) (now : ℤ)
  | voidSale (i : Nat) (now : ℤ)
deriving DecidableEq

/-- Dispatch one operation to its mutation. -/
def runOp (db : DB) : Op → Except Err DB
  | .createPurchase a user now => createPurchase db a user now
  | .createSale a user now => createSale db a user now
  | .adjustStock i q reason ty date user now =>
      adjustStock db i q reason ty date user now
  | .createStockMovement a user now => createStockMovement db a user now
  | .cancelPurchase i now => cancelPurchase db i now
  | .voidSale i now => voidSale db i now

/-- Run one mutation; a thrown error leaves the store unchanged (every
mutation validates before its first write). -/
def applyOp (db : DB) (op : Op) : DB :=
  match runOp db op with
  | .ok db' => db'
  | .error _ => db

def applyOps (db : DB) (ops : List Op) : DB :=
  ops.foldl applyOp db

/-- Every product's quantity on hand is non-negative. -/
def stockNonNeg (db : DB) : Prop :=
  ∀ p ∈ db.products, 0 ≤ p.qty

instance (db : DB) : Decidable (stockNonNeg db) :=
  List.decidableBAll _ _

/-- Every sale row's quantity is non-negative (what `voidSale` adds back). -/
def salesNonNeg (db : DB) : Prop :=
  ∀ s ∈ db.sales, 0 ≤ s.qty

instance (db : DB) : Decidable (salesNonNeg db) :=
  List.decidableBAll _ _

/-- The quantity arguments the mutations accept without validation are
non-negative (`createPurchase` and `createSale` perform no sign check of
their own). -/
def goodOp : Op → Prop
  | .createPurchase a _ _ => 0 ≤ a.qty
  | .createSale a _ _ => 0 ≤ a.qty
  | _ => True

instance : (op : Op) → Decidable (goodOp op)
  | .createPurchase a _ _ => inferInstanceAs (Decidable (0 ≤ a.qty))
  | .createSale a _ _ => inferInstanceAs (Decidable (0 ≤ a.qty))
  | .adjustStock .. => .isTrue trivial
  | .createStockMovement .. => .isTrue trivial
  | .cancelPurchase .. => .isTrue trivial
  | .voidSale .. => .isTrue trivial

/-! ## Concrete stores used to evaluate the theorems on closed inputs -/

/-- A product row with the given id, unit cost and quantity. -/
def productRow (i : Nat) (unitCost qty : ℤ) : Product :=
  { id := i
    sku := "SKU-1"
    name := "Espresso Beans"
    category := "Coffee"
    unit := "kg"
    unitCost := unitCost
    sellingPrice := some 20
    qty := qty
    reorderLevel := 0
    updatedAt := 0 }

/-- An empty store holding one product with the given id, unit cost and
quantity. -/
def oneProductDB (i : Nat) (unitCost qty : ℤ) : DB :=
  { products := [productRow i unitCost qty]
    purchases := []
    sales := []
    stockMovements := []
    expenses := []
    otherIncome := []
    appSettings := []
    nextId := i + 1 }

/-- A purchase of negative quantity, which `createPurchase` accepts
(fields: productId 0, qty -1, unitCost 5, totalCost -5, supplier, no
invoice, date 0, no payment method). -/
def opNegativePurchase : Op :=
  .createPurchase ⟨0, -1, 5, -5, "Acme", none, 0, none⟩ "alice" 0

/-- The end-to-end scenario of the specification: purchase 10 at cost 5,
sell 4 at price 20, void the sale, cancel the purchase. -/
def opsScenario : List Op :=
  [.createPurchase ⟨0, 10, 5, 50, "Acme", none, 1, none⟩ "alice" 1,
   .createSale ⟨0, 4, 20, 0, 2⟩ "alice" 2,
   .voidSale 2 3,
   .cancelPurchase 1 4]

/-- The two-purchase scenario: P1 at unit cost 10 on date 1, then P2 at
unit cost 12 on date 2, on the same product. -/
def dbTwoPurchases : DB :=
  applyOps (oneProductDB 0 0 0)
    [.createPurchase ⟨0, 10, 10, 100, "Acme", none, 1, none⟩ "alice" 1,
     .createPurchase ⟨0, 20, 12, 240, "Beta", none, 2, none⟩ "alice" 2]

/-- The row `createPurchase` inserted for P2 in `dbTwoPurchases`. -/
def purchaseP2 : Purchase :=
  { id := 2
    productId := 0
    qty := 20
    unitCost := 12
    totalCost := 240
    supplier := "Beta"
    invoiceNo := none
    date := 2
    status := some .active
    paymentMethod := none
    createdBy := "alice"
    createdAt := 2 }

/-- The row `createPurchase` inserted for P1 in `dbTwoPurchases`. -/
def purchaseP1 : Purchase :=
  { id := 1
    productId := 0
    qty := 10
    unitCost := 10
    totalCost := 100
    supplier := "Acme"
    invoiceNo := none
    date := 1
    status := some .active
    paymentMethod := none
    createdBy := "alice"
    createdAt := 1 }

/-- The product of `dbTwoPurchases` after both purchases: quantity 30,
unit cost 12 (the later purchase's cost — cost basis is last-in). -/
def productAfterTwoPurchases : Product :=
  { id := 0
    sku := "SKU-1"
    name := "Espresso Beans"
    category := "Coffee"
    unit := "kg"
    unitCost := 12
    sellingPrice := some 20
    qty := 30
    reorderLevel := 0
    updatedAt := 2 }

/-- A voided sale row on an arbitrary date inside the report window. -/
def voidedSaleRow : Sale :=
  { id := 7
    productId := 0
    qty := 2
    sellingPrice := 20
    discount := 0
    cogs := 10
    revenue := 40
    date := 5
    voided := some true
    createdBy := "alice"
    createdAt := 5 }

/-- A store with one existing settings record. -/
def dbWithSettings : DB :=
  { oneProductDB 0 0 0 with
    appSettings := [{ id := 9, taxRate := 11, expenseCategories := ["Rent"] }] }

/-! ## Store lemmas -/

theorem applyOp_ok {db db' : DB} {op : Op} (h : runOp db op = .ok db') :
    applyOp db op = db' := by
  unfold applyOp
  rw [h]

theorem applyOp_error {db : DB} {op : Op} {e : Err} (h : runOp db op = .error e) :
    applyOp db op = db := by
  unfold applyOp
  rw [h]

theorem findRow_eq_some {α : Type} {getId : α → Nat} {l : List α} {i : Nat} {a : α}
    (h : findRow getId l i = some a) : getId a = i ∧ a ∈ l := by
  have hm := List.mem_of_find?_eq_some h
  have hp := List.find?_some h
  simp only [beq_iff_eq] at hp
  exact ⟨hp, hm⟩

theorem findRow_patchRow {α : Type} {getId : α → Nat} (l : List α) (j i : Nat) (f : α → α)
    (hf : ∀ p, getId (f p) = getId p) :
    findRow getId (patchRow getId l j f) i
      = (findRow getId l i).map fun p => if getId p = j then f p else p := by
  induction l with
  | nil => rfl
  | cons p l ih =>
    have hid : getId (if getId p = j then f p else p) = getId p := by
      split
      · exact hf p
      · rfl
    unfold findRow patchRow
    simp only [List.map_cons, List.find?_cons, hid]
    by_cases hpi : getId p = i
    · rw [beq_iff_eq.mpr hpi]
      rfl
    · have hb : (getId p == i) = false := by simpa using hpi
      rw [hb]
      exact ih

theorem mem_patchRow {α : Type} {getId : α → Nat} {l : List α} {j : Nat} {f : α → α} {q : α}
    (h : q ∈ patchRow getId l j f) : ∃ p, p ∈ l ∧ (q = f p ∨ q = p) := by
  unfold patchRow at h
  obtain ⟨p, hp, rfl⟩ := List.mem_map.1 h
  refine ⟨p, hp, ?_⟩
  split
  · exact Or.inl rfl
  · exact Or.inr rfl

theorem findRow_append {α : Type} (getId : α → Nat) (l₁ l₂ : List α) (i : Nat) :
    findRow getId (l₁ ++ l₂) i = (findRow getId l₁ i).or (findRow getId l₂ i) :=
  List.find?_append

theorem findRow_append_fresh {α : Type} {getId : α → Nat} {l : List α} {x : α} {i : Nat}
    (hfresh : ∀ a ∈ l, getId a ≠ i) (hx : getId x = i) :
    findRow getId (l ++ [x]) i = some x := by
  rw [findRow_append]
  have h1 : findRow getId l i = none := by
    unfold findRow
    rw [List.find?_eq_none]
    intro a ha
    simpa using hfresh a ha
  rw [h1]
  unfold findRow
  simp [List.find?_cons, hx]

/-- The fold in `latestByDate` only moves on a strict date increase, so an
element whose date strictly dominates every other element of the list is
the one it returns, whatever the list order. -/
theorem foldl_pick_eq {l : List Purchase} {acc q : Purchase}
    (hmem : q = acc ∨ q ∈ l)
    (hmax : ∀ r, (r = acc ∨ r ∈ l) → r ≠ q → r.date < q.date) :
    l.foldl (fun a b => if a.date < b.date then b else a) acc = q := by
  induction l generalizing acc with
  | nil =>
    rcases hmem with rfl | h
    · rfl
    · cases h
  | cons r l ih =>
    simp only [List.foldl_cons]
    apply ih
    · rcases hmem with rfl | hq
      · by_cases hrq : r = q
        · subst hrq
          left
          split <;> rfl
        · left
          have hlt := hmax r (Or.inr (List.mem_cons_self r l)) hrq
          rw [if_neg (not_lt.2 (le_of_lt hlt))]
      · rcases List.mem_cons.1 hq with rfl | hql
        · by_cases haq : acc = q
          · subst haq
            left
            split <;> rfl
          · left
            have hlt := hmax acc (Or.inl rfl) haq
            rw [if_pos hlt]
        · exact Or.inr hql
    · intro r' hr' hne
      rcases hr' with rfl | hr'l
      · by_cases hlt : acc.date < r.date
        · rw [if_pos hlt] at hne ⊢
          exact hmax r (Or.inr (List.mem_cons_self r l)) hne
        · rw [if_neg hlt] at hne ⊢
          exact hmax acc (Or.inl rfl) hne
      · exact hmax r' (Or.inr (List.mem_cons_of_mem r hr'l)) hne

/-- `latestByDate` returns the unique strictly latest-dated element. -/
theorem latestByDate_eq_of_strict_max {l : List Purchase} {q : Purchase}
    (hq : q ∈ l) (hmax : ∀ r ∈ l, r ≠ q → r.date < q.date) :
    latestByDate l = some q := by
  cases l with
  | nil => cases hq
  | cons p ps =>
    unfold latestByDate
    refine congrArg some (foldl_pick_eq ?_ ?_)
    · rcases List.mem_cons.1 hq with rfl | h
      · exact Or.inl rfl
      · exact Or.inr h
    · intro r hr hne
      refine hmax r ?_ hne
      rcases hr with rfl | h
      · exact List.mem_cons_self ..
      · exact List.mem_cons_of_mem _ h

/-- One step of the stock non-negativity invariant: every mutation
preserves `stockNonNeg` (together with `salesNonNeg`, which `voidSale`'s
restoration consumes) when the unvalidated `createPurchase`/`createSale`
quantities are non-negative. -/
theorem inv_applyOp {db : DB} {op : Op}
    (h1 : stockNonNeg db) (h2 : salesNonNeg db) (hop : goodOp op) :
    stockNonNeg (applyOp db op) ∧ salesNonNeg (applyOp db op) := by
  cases hres : runOp db op with
  | error e =>
    rw [applyOp_error hres]
    exact ⟨h1, h2⟩
  | ok db' =>
    rw [applyOp_ok hres]
    cases op with
    | createPurchase a user now =>
      simp only [runOp] at hres
      cases hfp : db.findProduct a.productId with
      | none => simp [createPurchase, hfp] at hres
      | some product =>
        simp only [createPurchase, hfp, Except.ok.injEq] at hres
        subst hres
        refine ⟨fun p hp => ?_, fun s hs => h2 s hs⟩
        obtain ⟨p₀, hp₀, rfl | rfl⟩ := mem_patchRow hp
        · exact add_nonneg (h1 product (findRow_eq_some hfp).2) hop
        · exact h1 _ hp₀
    | createSale a user now =>
      simp only [runOp] at hres
      cases hfp : db.findProduct a.productId with
      | none => simp [createSale, hfp] at hres
      | some product =>
        simp only [createSale, hfp] at hres
        by_cases hq : product.qty < a.qty
        · rw [if_pos hq] at hres
          cases hres
        · rw [if_neg hq] at hres
          simp only [Except.ok.injEq] at hres
          subst hres
          constructor
          · intro p hp
            obtain ⟨p₀, hp₀, rfl | rfl⟩ := mem_patchRow hp
            · exact sub_nonneg.2 (not_lt.1 hq)
            · exact h1 _ hp₀
          · intro s hs
            rcases List.mem_append.1 hs with hmem | hmem
            · exact h2 s hmem
            · rw [List.mem_singleton] at hmem
              subst hmem
              exact hop
    | adjustStock i q reason ty date user now =>
      simp only [runOp] at hres
      by_cases hneg : q < 0
      · simp [adjustStock, hneg] at hres
      · cases hfp : db.findProduct i with
        | none => simp [adjustStock, hneg, hfp] at hres
        | some product =>
          simp only [adjustStock, if_neg hneg, hfp] at hres
          by_cases hd : q - product.qty ≠ 0
          · rw [if_pos hd] at hres
            simp only [Except.ok.injEq] at hres
            subst hres
            refine ⟨fun p hp => ?_, fun s hs => h2 s hs⟩
            obtain ⟨p₀, hp₀, rfl | rfl⟩ := mem_patchRow hp
            · exact not_lt.1 hneg
            · exact h1 _ hp₀
          · rw [if_neg hd] at hres
            simp only [Except.ok.injEq] at hres
            subst hres
            refine ⟨fun p hp => ?_, fun s hs => h2 s hs⟩
            obtain ⟨p₀, hp₀, rfl | rfl⟩ := mem_patchRow hp
            · exact not_lt.1 hneg
            · exact h1 _ hp₀
    | createStockMovement a user now =>
      simp only [runOp] at hres
      cases hfp : db.findProduct a.productId with
      | none => simp [createStockMovement, hfp] at hres
      | some product =>
        simp only [createStockMovement, hfp] at hres
        by_cases hneg : product.qty + a.qty < 0
        · rw [if_pos hneg] at hres
          cases hres
        · rw [if_neg hneg] at hres
          simp only [Except.ok.injEq] at hres
          subst hres
          refine ⟨fun p hp => ?_, fun s hs => h2 s hs⟩
          obtain ⟨p₀, hp₀, rfl | rfl⟩ := mem_patchRow hp
          · exact not_lt.1 hneg
          · exact h1 _ hp₀
    | cancelPurchase i now =>
      simp only [runOp] at hres
      cases hfpu : db.findPurchase i with
      | none => simp [cancelPurchase, hfpu] at hres
      | some purchase =>
        simp only [cancelPurchase, hfpu] at hres
        by_cases hst : purchase.status = some PurchaseStatus.cancelled
        · rw [if_pos hst] at hres
          cases hres
        · rw [if_neg hst] at hres
          cases hfp : db.findProduct purchase.productId with
          | none =>
            simp only [hfp, Except.ok.injEq] at hres
            subst hres
            exact ⟨fun p hp => h1 p hp, fun s hs => h2 s hs⟩
          | some product =>
            simp only [hfp, Except.ok.injEq] at hres
            subst hres
            refine ⟨fun p hp => ?_, fun s hs => h2 s hs⟩
            obtain ⟨p₀, hp₀, rfl | rfl⟩ := mem_patchRow hp
            · exact le_max_left 0 _
            · exact h1 _ hp₀
    | voidSale i now =>
      simp only [runOp] at hres
      cases hfs : db.findSale i with
      | none => simp [voidSale, hfs] at hres
      | some sale =>
        simp only [voidSale, hfs] at hres
        by_cases hv : sale.voided = some true
        · rw [if_pos hv] at hres
          cases hres
        · rw [if_neg hv] at hres
          have hsales : ∀ s, s ∈ patchRow Sale.id db.sales i
              (fun s => { s with voided := some true }) → 0 ≤ s.qty := by
            intro s hs
            obtain ⟨s₀, hs₀, rfl | rfl⟩ := mem_patchRow hs
            · exact h2 s₀ hs₀
            · exact h2 _ hs₀
          simp only [DB.findProduct] at hres
          cases hfp : findRow Product.id db.products sale.productId with
          | none =>
            simp only [hfp, Except.ok.injEq] at hres
            subst hres
            exact ⟨fun p hp => h1 p hp, fun s hs => hsales s hs⟩
          | some product =>
            simp only [hfp, Except.ok.injEq] at hres
            subst hres
            refine ⟨fun p hp => ?_, fun s hs => hsales s hs⟩
            obtain ⟨p₀, hp₀, rfl | rfl⟩ := mem_patchRow hp
            · exact add_nonneg (h1 product (findRow_eq_some hfp).2)
                (h2 sale (findRow_eq_some hfs).2)
            · exact h1 _ hp₀

/-- Both invariant halves survive a whole sequence of good operations. -/
theorem inv_applyOps {db : DB} {ops : List Op}
    (h1 : stockNonNeg db) (h2 : salesNonNeg db)
    (hops : ∀ op ∈ ops, goodOp op) :
    stockNonNeg (applyOps db ops) ∧ salesNonNeg (applyOps db ops) := by
  induction ops generalizing db with
  | nil => exact ⟨h1, h2⟩
  | cons op ops ih =>
    have hstep := inv_applyOp h1 h2 (hops op (List.mem_cons_self ..))
    exact ih hstep.1 hstep.2 fun o ho => hops o (List.mem_cons_of_mem _ ho)

/-! ## The claims -/

/-- C1 (amended): starting from a store whose products and sale rows all
carry non-negative quantities, every prefix of a sequence of the six
stock-mutating operations keeps every product's `qty` non-negative,
provided each `createPurchase` and `createSale` in the sequence is invoked
with a non-negative quantity (the mutations accept negative quantities
unvalidated, so the restriction is necessary — see the counterexample). -/
theorem stock_nonneg_invariant (db : DB) (ops : List Op)
    (h1 : stockNonNeg db) (h2 : salesNonNeg db)
    (hops : ∀ op ∈ ops, goodOp op) :
    ∀ pre post, ops = pre ++ post → stockNonNeg (applyOps db pre) := by
  intro pre post hsplit
  subst hsplit
  exact (inv_applyOps h1 h2 fun op ho => hops op (List.mem_append_left _ ho)).1

/-- C1, counterexample to the claim as stated: `createPurchase` accepts a
negative quantity (its `qty` argument is an unvalidated number), and one
such purchase on a product with zero stock drives `qty` to `-1`. -/
theorem stock_nonneg_counterexample :
    stockNonNeg (oneProductDB 0 0 0) ∧ salesNonNeg (oneProductDB 0 0 0) ∧
      ¬ stockNonNeg (applyOps (oneProductDB 0 0 0) [opNegativePurchase]) :=
  ⟨by decide, by decide, by decide⟩

/-- C1 witness: the specification's end-to-end scenario (purchase 10,
sell 4, void the sale, cancel the purchase) keeps stock non-negative. -/
theorem stock_nonneg_invariant_witness :
    stockNonNeg (applyOps (oneProductDB 0 0 0) opsScenario) :=
  stock_nonneg_invariant (oneProductDB 0 0 0) opsScenario (by decide) (by decide)
    (by decide) opsScenario [] (by simp)

/-- C2: `cancelPurchase` on an existing, non-cancelled purchase whose
product still exists floors the product's quantity at
`max 0 (qty - purchase.qty)`, sets the product's `unitCost` to the cost of
the strictly latest-dated other active purchase for that product — or
leaves it unchanged when none remain — and marks the purchase cancelled. -/
theorem cancelPurchase_recomputes_cost (db : DB) (i : Nat) (now : ℤ)
    (purchase : Purchase) (product : Product) (cost : ℤ)
    (hpu : db.findPurchase i = some purchase)
    (hst : purchase.status ≠ some PurchaseStatus.cancelled)
    (hpr : db.findProduct purchase.productId = some product)
    (hcost :
      (otherActivePurchases db.purchases i purchase.productId = [] ∧
        cost = product.unitCost) ∨
      ∃ q, q ∈ otherActivePurchases db.purchases i purchase.productId ∧
        (∀ r ∈ otherActivePurchases db.purchases i purchase.productId,
          r ≠ q → r.date < q.date) ∧
        cost = q.unitCost) :
    (cancelPurchase db i now).map (fun d =>
        ((d.findPurchase i).map Purchase.status,
         (d.findProduct purchase.productId).map Product.qty,
         (d.findProduct purchase.productId).map Product.unitCost))
      = .ok (some (some PurchaseStatus.cancelled),
             some (max 0 (product.qty - purchase.qty)),
             some cost) := by
  have hpuId : purchase.id = i := (findRow_eq_some hpu).1
  have hprId : product.id = purchase.productId := (findRow_eq_some hpr).1
  have hfinal : ∀ c : ℤ,
      cancelPurchase db i now = Except.ok { db with
          products := patchRow Product.id db.products purchase.productId fun p =>
            { p with
              qty := max 0 (product.qty - purchase.qty)
              unitCost := c
              updatedAt := now }
          purchases := patchRow Purchase.id db.purchases i fun p =>
            { p with status := some PurchaseStatus.cancelled } } →
      (cancelPurchase db i now).map (fun d =>
        ((d.findPurchase i).map Purchase.status,
         (d.findProduct purchase.productId).map Product.qty,
         (d.findProduct purchase.productId).map Product.unitCost))
      = .ok (some (some PurchaseStatus.cancelled),
             some (max 0 (product.qty - purchase.qty)),
             some c) := by
    intro c hok
    rw [hok]
    simp only [Except.map, DB.findPurchase, DB.findProduct]
    rw [@findRow_patchRow Purchase Purchase.id db.purchases i i
          (fun p => { p with status := some PurchaseStatus.cancelled }) fun p => rfl]
    rw [@findRow_patchRow Product Product.id db.products purchase.productId
          purchase.productId
          (fun p =>
            { p with
              qty := max 0 (product.qty - purchase.qty)
              unitCost := c
              updatedAt := now }) fun p => rfl]
    simp only [DB.findPurchase, DB.findProduct] at hpu hpr
    rw [hpu, hpr]
    simp [hpuId, hprId]
  rcases hcost with ⟨hempty, rfl⟩ | ⟨q, hqmem, hqmax, rfl⟩
  · refine hfinal product.unitCost ?_
    simp only [cancelPurchase, hpu, if_neg hst, hpr, hempty, latestByDate]
  · refine hfinal q.unitCost ?_
    simp only [cancelPurchase, hpu, if_neg hst, hpr,
      latestByDate_eq_of_strict_max hqmem hqmax]

/-- C2 witness: after purchases P1 (cost 10, date 1) and P2 (cost 12,
date 2) the product carries cost 12 (last-in) and quantity 30; cancelling
P2 floors the quantity at 10 and restores unit cost 10, P1's cost. -/
theorem cancelPurchase_recomputes_cost_witness :
    (dbTwoPurchases.findProduct 0).map Product.unitCost = some 12 ∧
    (cancelPurchase dbTwoPurchases 2 3).map (fun d =>
        ((d.findPurchase 2).map Purchase.status,
         (d.findProduct purchaseP2.productId).map Product.qty,
         (d.findProduct purchaseP2.productId).map Product.unitCost))
      = .ok (some (some PurchaseStatus.cancelled),
             some (max 0 (productAfterTwoPurchases.qty - purchaseP2.qty)),
             some purchaseP1.unitCost) :=
  ⟨by decide,
   cancelPurchase_recomputes_cost dbTwoPurchases 2 3 purchaseP2
     productAfterTwoPurchases purchaseP1.unitCost
     (by decide) (by decide) (by decide)
     (Or.inr ⟨purchaseP1, by decide, by decide, by decide⟩)⟩

/-- C3: a successful `createSale` immediately followed by `voidSale` on the
inserted sale restores the product's quantity to its pre-sale value, marks
the sale voided, and leaves the sale's `cogs` and `revenue` at the values
frozen at creation (`cogs = unitCost at sale time * qty`,
`revenue = sellingPrice * qty - discount`). -/
theorem createSale_voidSale_roundtrip (db : DB) (a : SaleArgs) (user : String)
    (now now2 : ℤ) (product : Product)
    (hpr : db.findProduct a.productId = some product)
    (hle : a.qty ≤ product.qty)
    (hfresh : ∀ s ∈ db.sales, s.id ≠ db.nextId) :
    ((createSale db a user now).bind fun db1 => voidSale db1 db.nextId now2).map
        (fun d =>
          ((d.findProduct a.productId).map Product.qty,
           (d.findSale db.nextId).map fun s => (s.voided, s.cogs, s.revenue)))
      = .ok (some product.qty,
             some (some true, product.unitCost * a.qty,
                   a.sellingPrice * a.qty - a.discount)) := by
  have hprId : product.id = a.productId := (findRow_eq_some hpr).1
  have hguard : ¬ product.qty < a.qty := not_lt.mpr hle
  simp only [DB.findProduct] at hpr
  simp only [createSale, DB.findProduct, hpr, if_neg hguard, Except.bind,
    Except.map, voidSale, DB.findSale,
    @findRow_append_fresh Sale Sale.id db.sales
      ⟨db.nextId, a.productId, a.qty, a.sellingPrice, a.discount,
       product.unitCost * a.qty, a.sellingPrice * a.qty - a.discount, a.date,
       some false, user, now⟩ db.nextId hfresh rfl,
    findRow_patchRow, Option.map_some', hprId]
  have hfp2 : findRow Product.id (patchRow Product.id db.products a.productId
        (fun p => { p with qty := product.qty - a.qty, updatedAt := now })) a.productId
      = some { product with qty := product.qty - a.qty, updatedAt := now } := by
    rw [@findRow_patchRow Product Product.id db.products a.productId a.productId
          (fun p => { p with qty := product.qty - a.qty, updatedAt := now }) fun p => rfl,
        hpr]
    simp [hprId]
  simp [hfp2, hprId]
  have hfp3 : findRow Product.id (patchRow Product.id
        (patchRow Product.id db.products a.productId
          (fun p => { p with qty := product.qty - a.qty, updatedAt := now }))
        a.productId (fun p => { p with qty := product.qty, updatedAt := now2 }))
        a.productId
      = some { product with qty := product.qty, updatedAt := now2 } := by
    rw [@findRow_patchRow Product Product.id
          (patchRow Product.id db.products a.productId
            (fun p => { p with qty := product.qty - a.qty, updatedAt := now }))
          a.productId a.productId
          (fun p => { p with qty := product.qty, updatedAt := now2 }) fun p => rfl,
        hfp2]
    simp [hprId]
  have hfs3 : ∀ w : Sale, w.id = db.nextId →
      findRow Sale.id (patchRow Sale.id (db.sales ++ [w]) db.nextId
          (fun s => { s with voided := some true })) db.nextId
        = some { w with voided := some true } := by
    intro w hw
    rw [@findRow_patchRow Sale Sale.id (db.sales ++ [w]) db.nextId db.nextId
          (fun s => { s with voided := some true }) fun s => rfl,
        @findRow_append_fresh Sale Sale.id db.sales w db.nextId hfresh hw]
    simp [hw]
  refine ⟨⟨{ product with qty := product.qty, updatedAt := now2 }, hfp3, rfl⟩, ?_⟩
  refine ⟨{ id := db.nextId, productId := a.productId, qty := a.qty, sellingPrice := a.sellingPrice, discount := a.discount, cogs := product.unitCost * a.qty, revenue := a.sellingPrice * a.qty - a.discount, date := a.date, voided := some true, createdBy := user, createdAt := now }, ?_, rfl, rfl, rfl⟩
  exact hfs3 { id := db.nextId, productId := a.productId, qty := a.qty, sellingPrice := a.sellingPrice, discount := a.discount, cogs := product.unitCost * a.qty, revenue := a.sellingPrice * a.qty - a.discount, date := a.date, voided := some false, createdBy := user, createdAt := now } rfl

/-- C3 witness: on a product with unit cost 5 and stock 10, selling 4 at
price 20 and voiding the sale restores quantity 10, and the voided sale
keeps `cogs = 20` and `revenue = 80`. -/
theorem createSale_voidSale_roundtrip_witness :
    ((createSale (oneProductDB 0 5 10) ⟨0, 4, 20, 0, 2⟩ "alice" 2).bind fun db1 =>
        voidSale db1 (oneProductDB 0 5 10).nextId 3).map
        (fun d =>
          ((d.findProduct 0).map Product.qty,
           (d.findSale (oneProductDB 0 5 10).nextId).map fun s =>
             (s.voided, s.cogs, s.revenue)))
      = .ok (some 10, some (some true, 20, 80)) :=
  createSale_voidSale_roundtrip (oneProductDB 0 5 10) ⟨0, 4, 20, 0, 2⟩ "alice" 2 3
    (productRow 0 5 10) (by decide) (by decide) (by decide)

/-- C4: with the product present, `createSale` fails with the
`InsufficientStock` error — carrying the available quantity and the
product's unit of measure for the message — exactly when the requested
quantity exceeds the stock on hand, and such a failure leaves the store
unchanged: no quantity change and no sale row. -/
theorem createSale_insufficient_stock (db : DB) (a : SaleArgs) (user : String)
    (now : ℤ) (product : Product)
    (hpr : db.findProduct a.productId = some product) :
    (createSale db a user now
        = .error (.insufficientStock product.qty product.unit)
      ↔ product.qty < a.qty) ∧
    (product.qty < a.qty → applyOp db (.createSale a user now) = db) := by
  constructor
  · constructor
    · intro herr
      by_contra hq
      simp only [createSale, hpr, if_neg hq] at herr
      exact Except.noConfusion herr
    · intro hq
      simp only [createSale, hpr, if_pos hq]
  · intro hq
    exact applyOp_error (show runOp db (Op.createSale a user now)
      = .error (.insufficientStock product.qty product.unit) by
        simp only [runOp, createSale, hpr, if_pos hq])

/-- C4 witness: selling 5 from a stock of 3 fails with the
`InsufficientStock` error carrying available 3 and unit "kg", and leaves
the store untouched. -/
theorem createSale_insufficient_stock_witness :
    createSale (oneProductDB 0 5 3) ⟨0, 5, 20, 0, 2⟩ "alice" 2
        = .error (.insufficientStock 3 "kg") ∧
      applyOp (oneProductDB 0 5 3) (.createSale ⟨0, 5, 20, 0, 2⟩ "alice" 2)
        = oneProductDB 0 5 3 :=
  ⟨(createSale_insufficient_stock (oneProductDB 0 5 3) ⟨0, 5, 20, 0, 2⟩ "alice" 2
      (productRow 0 5 3) (by decide)).1.mpr (by decide),
   (createSale_insufficient_stock (oneProductDB 0 5 3) ⟨0, 5, 20, 0, 2⟩ "alice" 2
      (productRow 0 5 3) (by decide)).2 (by decide)⟩

/-- C10: `createSale` imposes no lower bound on the quantity: any request
with `qty ≤ product.qty` — zero and negative included — is accepted and
sets the product's quantity to `product.qty - qty`, so a sale with
negative quantity strictly increases the stock on hand. -/
theorem createSale_no_lower_bound (db : DB) (a : SaleArgs) (user : String)
    (now : ℤ) (product : Product)
    (hpr : db.findProduct a.productId = some product)
    (hle : a.qty ≤ product.qty) :
    (createSale db a user now).map
        (fun d => (d.findProduct a.productId).map Product.qty)
      = .ok (some (product.qty - a.qty)) ∧
    (a.qty < 0 → product.qty < product.qty - a.qty) := by
  have hprId : product.id = a.productId := (findRow_eq_some hpr).1
  have hguard : ¬ product.qty < a.qty := not_lt.mpr hle
  constructor
  · simp only [DB.findProduct] at hpr
    simp only [createSale, DB.findProduct, hpr, if_neg hguard, Except.map]
    rw [@findRow_patchRow Product Product.id db.products a.productId a.productId
          (fun p => { p with qty := product.qty - a.qty, updatedAt := now })
          fun p => rfl,
        hpr]
    simp [hprId]
  · intro hneg
    omega

/-- C10 witness: a sale of quantity `-3` on a product holding 2 units is
accepted and raises the stock to 5. -/
theorem createSale_no_lower_bound_witness :
    (createSale (oneProductDB 0 5 2) ⟨0, -3, 20, 0, 2⟩ "alice" 2).map
        (fun d => (d.findProduct 0).map Product.qty)
      = .ok (some 5) ∧ (2 : ℤ) < 5 := by
  have h := createSale_no_lower_bound (oneProductDB 0 5 2) ⟨0, -3, 20, 0, 2⟩
    "alice" 2 (productRow 0 5 2) (by decide) (by decide)
  refine ⟨?_, by norm_num⟩
  simpa [productRow] using h.1

/-- C5: for every collection of sales, expenses and other-income rows and
every tax rate, the derived metrics satisfy
`netProfit = revenue - cogs - opExTotal + otherIncomeTotal - tax`, with
`tax = profitBeforeTax * taxRate/100` on a positive `profitBeforeTax` and
`tax = 0` whenever `profitBeforeTax ≤ 0`. -/
theorem computeMetrics_identity (data : PLData) (taxRate : ℚ) :
    (computeMetrics data taxRate).netProfit
        = (computeMetrics data taxRate).revenue
          - (computeMetrics data taxRate).cogs
          - (computeMetrics data taxRate).opExTotal
          + (computeMetrics data taxRate).otherIncomeTotal
          - (computeMetrics data taxRate).tax ∧
    (computeMetrics data taxRate).tax
        = if 0 < (computeMetrics data taxRate).profitBeforeTax
          then (computeMetrics data taxRate).profitBeforeTax * (taxRate / 100)
          else 0 := by
  constructor
  · simp only [computeMetrics]
  · simp only [computeMetrics]

/-- Enrichment only reads the product table, so replacing the sales table
does not change it. -/
theorem enrichSale_setSales (db : DB) (l : List Sale) :
    enrichSale { db with sales := l } = enrichSale db :=
  funext fun _ => rfl

/-- C6: `getPLData` returns exactly the expense and other-income rows whose
date lies in the inclusive window, and exactly the non-voided sales in the
window (enriched with product name/SKU); consequently inserting a voided
sale into the store changes nothing about the result, so a voided sale
contributes to no metric total for any window. -/
theorem getPLData_window_excludes_voided (db : DB) (startDate endDate : ℤ) :
    ((∀ e, e ∈ (getPLData db startDate endDate).expenses ↔
        e ∈ db.expenses ∧ startDate ≤ e.date ∧ e.date ≤ endDate) ∧
     (∀ o, o ∈ (getPLData db startDate endDate).otherIncome ↔
        o ∈ db.otherIncome ∧ startDate ≤ o.date ∧ o.date ≤ endDate) ∧
     (∀ x, x ∈ (getPLData db startDate endDate).sales ↔
        ∃ s, s ∈ db.sales ∧ (startDate ≤ s.date ∧ s.date ≤ endDate) ∧
          s.voided ≠ some true ∧ x = enrichSale db s)) ∧
    (∀ s, s.voided = some true →
      getPLData { db with sales := s :: db.sales } startDate endDate
        = getPLData db startDate endDate) := by
  refine ⟨⟨?_, ?_, ?_⟩, ?_⟩
  · intro e
    simp [getPLData, List.mem_filter]
  · intro o
    simp [getPLData, List.mem_filter]
  · intro x
    simp only [getPLData, List.mem_map, List.mem_filter, decide_eq_true_eq,
      Bool.not_eq_true', beq_eq_false_iff_ne]
    constructor
    · rintro ⟨s, ⟨⟨hs, hrange⟩, hvoid⟩, rfl⟩
      exact ⟨s, hs, hrange, hvoid, rfl⟩
    · rintro ⟨s, hs, hrange, hvoid, rfl⟩
      exact ⟨s, ⟨⟨hs, hrange⟩, hvoid⟩, rfl⟩
  · intro s hv
    have hL : (((s :: db.sales).filter fun x =>
            decide (startDate ≤ x.date ∧ x.date ≤ endDate)).filter fun x =>
            !(x.voided == some true))
        = ((db.sales.filter fun x =>
            decide (startDate ≤ x.date ∧ x.date ≤ endDate)).filter fun x =>
            !(x.voided == some true)) := by
      rw [List.filter_cons]
      split
      · rw [List.filter_cons]
        simp [hv]
      · rfl
    simp only [getPLData, enrichSale_setSales, hL]

/-- C6 witness: inserting a voided sale dated inside the window leaves the
report data of that window unchanged. -/
theorem getPLData_window_excludes_voided_witness :
    getPLData { oneProductDB 0 5 10 with
        sales := voidedSaleRow :: (oneProductDB 0 5 10).sales } 0 10
      = getPLData (oneProductDB 0 5 10) 0 10 :=
  (getPLData_window_excludes_voided (oneProductDB 0 5 10) 0 10).2
    voidedSaleRow (by decide)

/-- C7: `adjustStock` rejects a negative target quantity with the
`NegativeQuantity` error; otherwise it sets the product's absolute
quantity and `updatedAt`, and appends a `StockMovement` carrying the
signed delta `newQty - product.qty` — `type` defaulting to `adjustment`,
`date` defaulting to now — exactly when that delta is non-zero. -/
theorem adjustStock_spec (db : DB) (i : Nat) (q : ℤ) (reason : String)
    (ty : Option MovementType) (date : Option ℤ) (user : String) (now : ℤ)
    (product : Product) (hpr : db.findProduct i = some product) :
    (q < 0 → adjustStock db i q reason ty date user now
        = .error .negativeQuantity) ∧
    (0 ≤ q → (adjustStock db i q reason ty date user now).map
        (fun d => (d.findProduct i).map fun p => (p.qty, p.updatedAt))
      = .ok (some (q, now))) ∧
    (0 ≤ q → q - product.qty ≠ 0 →
      (adjustStock db i q reason ty date user now).map DB.stockMovements
        = .ok (db.stockMovements ++ [{
            id := db.nextId
            productId := i
            type := ty.getD .adjustment
            qty := q - product.qty
            reason := some reason
            date := date.getD now
            createdBy := user
            createdAt := now }])) ∧
    (0 ≤ q → q - product.qty = 0 →
      (adjustStock db i q reason ty date user now).map DB.stockMovements
        = .ok db.stockMovements) := by
  have hprId : product.id = i := (findRow_eq_some hpr).1
  simp only [DB.findProduct] at hpr
  refine ⟨?_, ?_, ?_, ?_⟩
  · intro hq
    simp only [adjustStock, if_pos hq]
  · intro hq
    simp only [adjustStock, if_neg (not_lt.mpr hq), DB.findProduct, hpr,
      Except.map]
    by_cases hd : q - product.qty ≠ 0
    · rw [if_pos hd]
      simp only [DB.findProduct]
      rw [@findRow_patchRow Product Product.id db.products i i
            (fun p => { p with qty := q, updatedAt := now }) fun p => rfl,
          hpr]
      simp [hprId]
    · rw [if_neg hd]
      simp only [DB.findProduct]
      rw [@findRow_patchRow Product Product.id db.products i i
            (fun p => { p with qty := q, updatedAt := now }) fun p => rfl,
          hpr]
      simp [hprId]
  · intro hq hd
    simp only [adjustStock, if_neg (not_lt.mpr hq), DB.findProduct, hpr,
      if_pos hd, Except.map]
  · intro hq hd
    simp only [adjustStock, if_neg (not_lt.mpr hq), DB.findProduct, hpr,
      Except.map]
    rw [if_neg (by simpa using hd)]

/-- C7 witness: setting the absolute quantity to 7 on a product holding 10
succeeds with `qty = 7`, `updatedAt` refreshed, and appends the movement
with delta `-3` and type `adjustment`; a negative target `-1` fails with
the `NegativeQuantity` error. -/
theorem adjustStock_spec_witness :
    (adjustStock (oneProductDB 0 5 10) 0 7 "stocktake" none none "alice" 4).map
        (fun d => (d.findProduct 0).map fun p => (p.qty, p.updatedAt))
      = .ok (some (7, 4)) ∧
    (adjustStock (oneProductDB 0 5 10) 0 7 "stocktake" none none "alice" 4).map
        DB.stockMovements
      = .ok [{
          id := 1
          productId := 0
          type := .adjustment
          qty := -3
          reason := some "stocktake"
          date := 4
          createdBy := "alice"
          createdAt := 4 }] ∧
    adjustStock (oneProductDB 0 5 10) 0 (-1) "oops" none none "alice" 4
      = .error .negativeQuantity := by
  have h := adjustStock_spec (oneProductDB 0 5 10) 0 7 "stocktake" none none
    "alice" 4 (productRow 0 5 10) (by decide)
  have h2 := adjustStock_spec (oneProductDB 0 5 10) 0 (-1) "oops" none none
    "alice" 4 (productRow 0 5 10) (by decide)
  refine ⟨h.2.1 (by decide), ?_, h2.1 (by decide)⟩
  have h3 := h.2.2.1 (by decide) (by decide)
  simpa [productRow, oneProductDB] using h3

/-- C8: `cancelPurchase` on an existing, non-cancelled purchase succeeds;
calling it again on the same id fails with the `AlreadyCancelled` error
and — the error being thrown before any write — leaves both the purchase
and the product state exactly as after the first cancellation. -/
theorem cancelPurchase_twice (db : DB) (i : Nat) (now now2 : ℤ)
    (purchase : Purchase)
    (hpu : db.findPurchase i = some purchase)
    (hst : purchase.status ≠ some PurchaseStatus.cancelled) :
    (cancelPurchase db i now).isOk = true ∧
    cancelPurchase (applyOp db (.cancelPurchase i now)) i now2
      = .error .purchaseAlreadyCancelled ∧
    applyOp (applyOp db (.cancelPurchase i now)) (.cancelPurchase i now2)
      = applyOp db (.cancelPurchase i now) := by
  have hpuId : purchase.id = i := (findRow_eq_some hpu).1
  have hsecond : ∀ dbx : DB,
      dbx.purchases = patchRow Purchase.id db.purchases i
        (fun p => { p with status := some PurchaseStatus.cancelled }) →
      cancelPurchase dbx i now2 = .error .purchaseAlreadyCancelled := by
    intro dbx hx
    have hfind : dbx.findPurchase i
        = some { purchase with status := some PurchaseStatus.cancelled } := by
      simp only [DB.findPurchase, hx]
      rw [@findRow_patchRow Purchase Purchase.id db.purchases i i
            (fun p => { p with status := some PurchaseStatus.cancelled })
            fun p => rfl]
      simp only [DB.findPurchase] at hpu
      rw [hpu]
      simp [hpuId]
    simp [cancelPurchase, hfind]
  cases hres : cancelPurchase db i now with
  | error e =>
    exfalso
    simp only [cancelPurchase, hpu, if_neg hst] at hres
    cases hfp : db.findProduct purchase.productId <;>
      simp only [hfp] at hres <;> exact Except.noConfusion hres
  | ok db1 =>
    have hx : db1.purchases = patchRow Purchase.id db.purchases i
        (fun p => { p with status := some PurchaseStatus.cancelled }) := by
      simp only [cancelPurchase, hpu, if_neg hst] at hres
      cases hfp : db.findProduct purchase.productId <;>
        simp only [hfp, Except.ok.injEq] at hres <;> subst hres <;> rfl
    have happ : applyOp db (Op.cancelPurchase i now) = db1 :=
      applyOp_ok (show runOp db (Op.cancelPurchase i now) = Except.ok db1 from hres)
    refine ⟨rfl, ?_, ?_⟩
    · rw [happ]
      exact hsecond db1 hx
    · rw [happ]
      exact applyOp_error (show runOp db1 (Op.cancelPurchase i now2)
        = .error .purchaseAlreadyCancelled from hsecond db1 hx)

/-- C8 witness: cancelling purchase P2 of the two-purchase store succeeds;
a second cancellation fails with the `AlreadyCancelled` error and changes
nothing. -/
theorem cancelPurchase_twice_witness :
    (cancelPurchase dbTwoPurchases 2 3).isOk = true ∧
    cancelPurchase (applyOp dbTwoPurchases (.cancelPurchase 2 3)) 2 4
      = .error .purchaseAlreadyCancelled ∧
    applyOp (applyOp dbTwoPurchases (.cancelPurchase 2 3)) (.cancelPurchase 2 4)
      = applyOp dbTwoPurchases (.cancelPurchase 2 3) :=
  cancelPurchase_twice dbTwoPurchases 2 3 4 purchaseP2 (by decide) (by decide)

/-- C9: `upsertSettings` is a partial update: on an existing record each
omitted argument leaves the stored field unchanged and each supplied
argument replaces it; with no record it creates one, defaulting omitted
fields to `taxRate = 0` and `expenseCategories = []`. -/
theorem upsertSettings_merge (db : DB) (t : Option ℤ)
    (c : Option (List String)) :
    (∀ ex, getSettings db = some ex →
      getSettings (upsertSettings db t c)
        = some { ex with
            taxRate := t.getD ex.taxRate
            expenseCategories := c.getD ex.expenseCategories }) ∧
    (getSettings db = none →
      getSettings (upsertSettings db t c)
        = some { id := db.nextId, taxRate := t.getD 0,
                 expenseCategories := c.getD [] }) := by
  constructor
  · intro ex hex
    simp only [getSettings] at hex
    simp only [upsertSettings, hex, getSettings]
    unfold patchRow
    rw [List.head?_map, hex]
    cases t <;> cases c <;> simp
  · intro hnone
    simp only [getSettings] at hnone
    have h0 : db.appSettings = [] := List.head?_eq_none_iff.mp hnone
    simp only [upsertSettings, hnone, getSettings, h0]
    cases t <;> cases c <;> simp

/-- C9 witness: on a store whose settings record is
`{taxRate := 11, expenseCategories := ["Rent"]}`, supplying only
`taxRate := 5` replaces the tax rate and leaves the categories unchanged. -/
theorem upsertSettings_merge_witness :
    getSettings (upsertSettings dbWithSettings (some 5) none)
      = some { id := 9, taxRate := 5, expenseCategories := ["Rent"] } :=
  (upsertSettings_merge dbWithSettings (some 5) none).1
    ⟨9, 11, ["Rent"]⟩ (by decide)

end CRM
